import Mathlib

/-!
# packer-plugin-vsphere, builder/vsphere/common: steps over a shared state bag

A shallow embedding of

* `step_remote_upload.go` (`StepRemoteUpload.Run`, `uploadFile`, `Cleanup`,
  `GetRemoteDirectoryAndPath`),
* `step_hardware.go` (`HardwareConfig.Prepare`, `StepConfigureHardware.Run`),
* `step_config_params.go` (`StepConfigParams.Run`).

Conventions of the embedding.

* A Go `error` is its message, a `String`; `nil` is `none`.
* The state bag (`multistep.StateBag`) is a finite map from keys to dynamically
  typed values, here a function `String → Option Value`.
* The collaborators outside this package (the vSphere driver, its datastores and
  virtual machines) are a record of state-passing functions over an arbitrary
  world type `σ`; every call a step makes is also appended, with its result, to a
  trace of `Event`s, in program order. `ui.Say` and `log.Printf` are events too.
* A failed type assertion or a nil dereference panics in Go; the embedded
  method then has `ret = none`, and its `Result` still carries the state bag,
  the world and the calls made up to the panic.
-/

set_option autoImplicit false

/-! ## Go library functions used by the package -/

namespace filepath

/-- Drop the path separators that end a path (the first loop of `filepath.Base`). -/
def stripTrailingSeparators (cs : List Char) : List Char :=
  (cs.reverse.dropWhile (fun c => c == '/')).reverse

/-- What follows the last path separator (the second loop of `filepath.Base`). -/
def lastElement (cs : List Char) : List Char :=
  (cs.reverse.takeWhile (fun c => c != '/')).reverse

/-- Go's `path/filepath.Base` where the separator is `/` and there are no volume
names: the last element of the path, trailing separators removed first; `"."`
for the empty path and `"/"` for a path of separators only. -/
def Base (path : String) : String :=
  if path = "" then "."
  else
    let p := lastElement (stripTrailingSeparators path.data)
    if p = [] then "/" else String.mk p

end filepath

namespace multistep

/-- The two actions a step's `Run` may return. -/
inductive StepAction where
  | ActionContinue
  | ActionHalt
  deriving DecidableEq, Repr

/-- Key set by the runner when the step sequence was cancelled. -/
def StateCancelled : String := "cancelled"

/-- Key set by the runner when a step halted the sequence. -/
def StateHalted : String := "halted"

end multistep

/-! ## The state bag -/

/-- A dynamically typed value held by the state bag (`interface{}`). The handles
record the dynamic type that the steps assert on. -/
inductive Value where
  /-- a Go `string` -/
  | str (s : String)
  /-- a Go `bool` -/
  | bool (b : Bool)
  /-- a Go `error`, by its message -/
  | error (msg : String)
  /-- a `packersdk.Ui` -/
  | ui
  /-- a `driver.Driver`; the flag says that its dynamic type is `*driver.VCenterDriver` -/
  | driver (isVCenterDriver : Bool)
  /-- a `driver.VirtualMachine`; the flag says that its dynamic type is
  `*driver.VirtualMachineDriver` -/
  | vm (isVirtualMachineDriver : Bool)
  /-- any other value, the nil interface included -/
  | other
  deriving DecidableEq, Repr

/-- The state bag: `multistep.BasicStateBag`, a map from keys to values. -/
abbrev StateBag := String → Option Value

namespace StateBag

/-- The bag with no key. -/
def empty : StateBag := fun _ => none

/-- Go `state.GetOk(k)`: the value and whether the key is present. -/
def GetOk (state : StateBag) (k : String) : Option Value := state k

/-- Go `state.Put(k, v)`. -/
def Put (state : StateBag) (k : String) (v : Value) : StateBag :=
  fun q => if q = k then some v else state q

end StateBag

/-! ## Remote object addressing -/

/-- Go `GetRemoteDirectoryAndPath(path, ds)`, with `ds.Name()` passed as `dsName`:
returns `(filename, remotePath, remoteDirectory, fullRemotePath)`. -/
def GetRemoteDirectoryAndPath (path : String) (dsName : String) :
    String × String × String × String :=
  let filename := filepath.Base path
  let remotePath := "packer_cache/" ++ filename
  let remoteDirectory := "[" ++ dsName ++ "] packer_cache"
  let fullRemotePath := remoteDirectory ++ "/" ++ filename
  (filename, remotePath, remoteDirectory, fullRemotePath)

/-! ## Hardware configuration -/

/-- Go `HardwareConfig` of package `common` (seventeen fields). -/
structure HardwareConfig where
  CPUs : Int := 0
  CpuCores : Int := 0
  CPUReservation : Int := 0
  CPULimit : Int := 0
  CpuHotAddEnabled : Bool := false
  RAM : Int := 0
  RAMReservation : Int := 0
  RAMReserveAll : Bool := false
  MemoryHotAddEnabled : Bool := false
  VideoRAM : Int := 0
  Displays : Int := 0
  VGPUProfile : String := ""
  NestedHV : Bool := false
  Firmware : String := ""
  ForceBIOSSetup : Bool := false
  VTPMEnabled : Bool := false
  VirtualPrecisionClock : String := ""
  deriving DecidableEq, Repr

namespace HardwareConfig

/-- Message of the first check of `Prepare`. -/
def errReserve : String :=
  "'RAM_reservation' and 'RAM_reserve_all' cannot be used together"

/-- Message of the second check of `Prepare`. -/
def errFirmware : String :=
  "'firmware' must be '', 'bios', 'efi' or 'efi-secure'"

/-- Message of the third check of `Prepare`. -/
def errVTPM : String :=
  "'vTPM' could be enabled only when 'firmware' set to 'efi' or 'efi-secure'"

/-- Message of the fourth check of `Prepare`. -/
def errClock : String :=
  "'precision_clock' must be '', 'ptp', 'ntp', or 'none'"

/-- Go `(c *HardwareConfig) Prepare() []error`: four independent checks, each
appending to `errs`. -/
def Prepare (c : HardwareConfig) : List String :=
  let errs : List String := []
  let errs :=
    if c.RAMReservation > 0 && c.RAMReserveAll != false then errs ++ [errReserve] else errs
  let errs :=
    if c.Firmware != "" && c.Firmware != "bios" && c.Firmware != "efi"
        && c.Firmware != "efi-secure" then errs ++ [errFirmware] else errs
  let errs :=
    if c.VTPMEnabled && c.Firmware != "efi" && c.Firmware != "efi-secure" then
      errs ++ [errVTPM] else errs
  let errs :=
    if c.VirtualPrecisionClock != "" && c.VirtualPrecisionClock != "ptp"
        && c.VirtualPrecisionClock != "ntp" && c.VirtualPrecisionClock != "none" then
      errs ++ [errClock] else errs
  errs

/-- Rule (1) of the specification is broken: a positive memory reservation
together with reserve-all-memory. -/
def brokenReserve (c : HardwareConfig) : Prop :=
  c.RAMReservation > 0 ∧ c.RAMReserveAll = true

/-- Rule (2) is broken: the firmware is none of unset, bios, efi, efi-secure. -/
def brokenFirmware (c : HardwareConfig) : Prop :=
  c.Firmware ∉ ["", "bios", "efi", "efi-secure"]

/-- Rule (3) is broken: vTPM enabled with a firmware that is neither efi nor
efi-secure. -/
def brokenVTPM (c : HardwareConfig) : Prop :=
  c.VTPMEnabled = true ∧ c.Firmware ∉ ["efi", "efi-secure"]

/-- Rule (4) is broken: the precision clock is none of unset, none, ntp, ptp. -/
def brokenClock (c : HardwareConfig) : Prop :=
  c.VirtualPrecisionClock ∉ ["", "none", "ntp", "ptp"]

instance (c : HardwareConfig) : Decidable (brokenReserve c) := by
  unfold brokenReserve; infer_instance

instance (c : HardwareConfig) : Decidable (brokenFirmware c) := by
  unfold brokenFirmware; infer_instance

instance (c : HardwareConfig) : Decidable (brokenVTPM c) := by
  unfold brokenVTPM; infer_instance

instance (c : HardwareConfig) : Decidable (brokenClock c) := by
  unfold brokenClock; infer_instance

/-- The list of violations as the specification words it: one entry for each
broken rule among (1) to (4), in that order, and nothing else. -/
def violationsSpec (c : HardwareConfig) : List String :=
  (if brokenReserve c then [errReserve] else [])
    ++ (if brokenFirmware c then [errFirmware] else [])
    ++ (if brokenVTPM c then [errVTPM] else [])
    ++ (if brokenClock c then [errClock] else [])

end HardwareConfig


namespace driver

/-- Go `driver.HardwareConfig`, the argument of `VirtualMachine.Configure`: the
seventeen fields that `StepConfigureHardware.Run` fills in. -/
structure HardwareConfig where
  CPUs : Int := 0
  CpuCores : Int := 0
  CPUReservation : Int := 0
  CPULimit : Int := 0
  RAM : Int := 0
  RAMReservation : Int := 0
  RAMReserveAll : Bool := false
  NestedHV : Bool := false
  CpuHotAddEnabled : Bool := false
  MemoryHotAddEnabled : Bool := false
  VideoRAM : Int := 0
  Displays : Int := 0
  VGPUProfile : String := ""
  Firmware : String := ""
  ForceBIOSSetup : Bool := false
  VTPMEnabled : Bool := false
  VirtualPrecisionClock : String := ""
  deriving DecidableEq, Repr

end driver

namespace types

/-- Go `types.ToolsConfigInfo` (govmomi), restricted to the two fields that
`StepConfigParams.Run` may set; `SyncTimeWithHost` is a `*bool`, `none` when nil. -/
structure ToolsConfigInfo where
  SyncTimeWithHost : Option Bool := none
  ToolsUpgradePolicy : String := ""
  deriving DecidableEq, Repr

end types

/-! ## Collaborators and the trace of calls -/

/-- A Go `map[string]string`; `none` is the nil map. -/
abbrev GoMap := Option (List (String × String))

/-- The collaborators of the steps, over a world `σ` and a type `D` of
datastore handles. Every call takes the world and returns its result with the
world after the call. -/
structure Platform (σ D : Type) where
  /-- `Driver.FindDatastore(name, host) (Datastore, error)` -/
  FindDatastore : σ → String → String → Except String D × σ
  /-- `Datastore.Name() string` -/
  Name : D → String
  /-- `Datastore.FileExists(path) bool` -/
  FileExists : σ → D → String → Bool × σ
  /-- `Datastore.DirExists(path) bool` -/
  DirExists : σ → D → String → Bool × σ
  /-- `Datastore.MakeDirectory(path) error` -/
  MakeDirectory : σ → D → String → Option String × σ
  /-- `Datastore.UploadFile(src, dst, host, setHost) error` -/
  UploadFile : σ → D → String → String → String → Bool → Option String × σ
  /-- `Datastore.Delete(path) error` -/
  Delete : σ → D → String → Option String × σ
  /-- `VirtualMachine.Configure(config) error` -/
  Configure : σ → driver.HardwareConfig → Option String × σ
  /-- `VirtualMachineDriver.AddConfigParams(params, info) error` -/
  AddConfigParams : σ → GoMap → Option types.ToolsConfigInfo → Option String × σ

deriving instance DecidableEq for Except

/-- One call made by a step, with its arguments and its result. -/
inductive Event (D : Type) where
  | Say (msg : String)
  | Log (msg : String)
  | FindDatastore (name host : String) (res : Except String D)
  | FileExists (ds : D) (path : String) (res : Bool)
  | DirExists (ds : D) (path : String) (res : Bool)
  | MakeDirectory (ds : D) (path : String) (err : Option String)
  | UploadFile (ds : D) (src dst host : String) (setHost : Bool) (err : Option String)
  | Delete (ds : D) (path : String) (err : Option String)
  | Configure (config : driver.HardwareConfig) (err : Option String)
  | AddConfigParams (params : GoMap) (info : Option types.ToolsConfigInfo)
      (err : Option String)
  deriving DecidableEq

namespace Event

variable {D : Type}

/-- The call returned an error. -/
def failed : Event D → Bool
  | FindDatastore _ _ (.error _) => true
  | MakeDirectory _ _ (some _) => true
  | UploadFile _ _ _ _ _ (some _) => true
  | Delete _ _ (some _) => true
  | Configure _ (some _) => true
  | AddConfigParams _ _ (some _) => true
  | _ => false

/-- The call is a `Datastore.Delete`. -/
def isDelete : Event D → Bool
  | Delete _ _ _ => true
  | _ => false

/-- The call is a `Datastore.UploadFile`. -/
def isUploadFile : Event D → Bool
  | UploadFile _ _ _ _ _ _ => true
  | _ => false

/-- The call is a `Datastore.DirExists`. -/
def isDirExists : Event D → Bool
  | DirExists _ _ _ => true
  | _ => false

/-- The call is a `Datastore.MakeDirectory`. -/
def isMakeDirectory : Event D → Bool
  | MakeDirectory _ _ _ => true
  | _ => false

/-- The call is a `VirtualMachine.Configure`. -/
def isConfigure : Event D → Bool
  | Configure _ _ => true
  | _ => false

/-- The call is an `AddConfigParams`. -/
def isAddConfigParams : Event D → Bool
  | AddConfigParams _ _ _ => true
  | _ => false

end Event

/-- What a call of a step method leaves behind: the returned value (`none` when
the call panicked), the receiver, the state bag, the world and the calls made. -/
structure Result (σ D S R : Type) where
  ret : Option R
  step : S
  state : StateBag
  world : σ
  trace : List (Event D)

/-- Rendering of a bag value by the verb `%s`: a string is itself, an error its
message, a bool the bad-verb form; the rendering of a handle depends on its
concrete type, which the model does not carry, and is a fixed placeholder. -/
def Value.format : Value → String
  | .str s => s
  | .error msg => msg
  | .bool true => "%!s(bool=true)"
  | .bool false => "%!s(bool=false)"
  | _ => "%!s(?)"

/-! ## The remote upload step -/

/-- Go `StepRemoteUpload`. -/
structure StepRemoteUpload where
  Datastore : String := ""
  Host : String := ""
  SetHostForDatastoreUploads : Bool := false
  RemoteCacheCleanup : Bool := false
  UploadedCustomCD : Bool := false
  deriving DecidableEq, Repr

namespace StepRemoteUpload

variable {σ D : Type}

/-- Go `(s *StepRemoteUpload) uploadFile(path, d, ui) (string, error)`. Returns
the Go result, the world after the call and the calls made. -/
def uploadFile (P : Platform σ D) (s : StepRemoteUpload) (path : String) (w : σ) :
    Except String String × σ × List (Event D) :=
  match P.FindDatastore w s.Datastore s.Host with
  | (.error err, w1) =>
    (.error ("error finding the datastore: " ++ err), w1,
      [.FindDatastore s.Datastore s.Host (.error err)])
  | (.ok ds, w1) =>
    let (filename, remotePath, remoteDirectory, fullRemotePath) :=
      GetRemoteDirectoryAndPath path (P.Name ds)
    let t1 : List (Event D) := [.FindDatastore s.Datastore s.Host (.ok ds)]
    match P.FileExists w1 ds remotePath with
    | (true, w2) =>
      (.ok fullRemotePath, w2,
        t1 ++ [.FileExists ds remotePath true,
               .Say ("File " ++ fullRemotePath ++ " already exists; skipping upload...")])
    | (false, w2) =>
      let t2 : List (Event D) :=
        t1 ++ [.FileExists ds remotePath false,
               .Say ("Uploading " ++ filename ++ " to " ++ remoteDirectory ++ "...")]
      match P.DirExists w2 ds remotePath with
      | (false, w3) =>
        let t3 : List (Event D) :=
          t2 ++ [.DirExists ds remotePath false,
                 .Log ("Cache directory does not exist; creating " ++ remoteDirectory ++ "...")]
        match P.MakeDirectory w3 ds remoteDirectory with
        | (some err, w4) => (.error err, w4, t3 ++ [.MakeDirectory ds remoteDirectory (some err)])
        | (none, w4) =>
          let t4 : List (Event D) := t3 ++ [.MakeDirectory ds remoteDirectory none]
          match P.UploadFile w4 ds path remotePath s.Host s.SetHostForDatastoreUploads with
          | (some err, w5) =>
            (.error err, w5,
              t4 ++ [.UploadFile ds path remotePath s.Host s.SetHostForDatastoreUploads (some err)])
          | (none, w5) =>
            (.ok fullRemotePath, w5,
              t4 ++ [.UploadFile ds path remotePath s.Host s.SetHostForDatastoreUploads none])
      | (true, w3) =>
        let t3 : List (Event D) := t2 ++ [.DirExists ds remotePath true]
        match P.UploadFile w3 ds path remotePath s.Host s.SetHostForDatastoreUploads with
        | (some err, w5) =>
          (.error err, w5,
            t3 ++ [.UploadFile ds path remotePath s.Host s.SetHostForDatastoreUploads (some err)])
        | (none, w5) =>
          (.ok fullRemotePath, w5,
            t3 ++ [.UploadFile ds path remotePath s.Host s.SetHostForDatastoreUploads none])

/-- Lines 49 to 53 of `Run`: publish the cleanup request and continue. -/
def Run.finish (s : StepRemoteUpload) (state : StateBag) (w : σ) (tr : List (Event D)) :
    Result σ D StepRemoteUpload multistep.StepAction :=
  let state :=
    if s.RemoteCacheCleanup then state.Put "remote_cache_cleanup" (.bool s.RemoteCacheCleanup)
    else state
  ⟨some .ActionContinue, s, state, w, tr⟩

/-- Lines 38 to 53 of `Run`: the upload of the Packer-created `cd_files` disk,
then `Run.finish`. `tr` holds the calls made so far. -/
def Run.cdBlock (P : Platform σ D) (s : StepRemoteUpload) (state : StateBag) (w : σ)
    (tr : List (Event D)) : Result σ D StepRemoteUpload multistep.StepAction :=
  match state.GetOk "cd_path" with
  | some cdPath =>
    match cdPath with
    | .str p =>
      match s.uploadFile P p w with
      | (.error err, w1, t1) =>
        ⟨some .ActionHalt, s, state.Put "error" (.error err), w1, tr ++ t1⟩
      | (.ok fullRemotePath, w1, t1) =>
        Run.finish { s with UploadedCustomCD := true }
          (state.Put "cd_path" (.str fullRemotePath)) w1 (tr ++ t1)
    | _ => ⟨none, s, state, w, tr⟩
  | none => Run.finish s state w tr

/-- Go `(s *StepRemoteUpload) Run(ctx, state) multistep.StepAction`. -/
def Run (P : Platform σ D) (s : StepRemoteUpload) (state : StateBag) (w : σ) :
    Result σ D StepRemoteUpload multistep.StepAction :=
  match state "ui" with
  | some .ui =>
    match state "driver" with
    | some (.driver _) =>
      match state.GetOk "iso_path" with
      | some path =>
        match path with
        | .str p =>
          match s.uploadFile P p w with
          | (.error err, w1, t1) =>
            ⟨some .ActionHalt, s, state.Put "error" (.error err), w1, t1⟩
          | (.ok fullRemotePath, w1, t1) =>
            Run.cdBlock P s (state.Put "iso_remote_path" (.str fullRemotePath)) w1 t1
        | _ => ⟨none, s, state, w, []⟩
      | none => Run.cdBlock P s state w []
    | _ => ⟨none, s, state, w, []⟩
  | _ => ⟨none, s, state, w, []⟩

/-- Go `(s *StepRemoteUpload) Cleanup(state)`. -/
def Cleanup (P : Platform σ D) (s : StepRemoteUpload) (state : StateBag) (w : σ) :
    Result σ D StepRemoteUpload Unit :=
  let cancelled := (state.GetOk multistep.StateCancelled).isSome
  let halted := (state.GetOk multistep.StateHalted).isSome
  let remoteCacheCleanup := (state.GetOk "remote_cache_cleanup").isSome
  if !cancelled && !halted && !remoteCacheCleanup then ⟨some (), s, state, w, []⟩
  else if !s.UploadedCustomCD then ⟨some (), s, state, w, []⟩
  else
    match state.GetOk "cd_path" with
    | none => ⟨some (), s, state, w, []⟩
    | some UploadedCDPath =>
      match state "ui" with
      | some .ui =>
        match state "driver" with
        | some (.driver true) =>
          let t0 : List (Event D) := [.Say ("Removing " ++ UploadedCDPath.format ++ "...")]
          match P.FindDatastore w s.Datastore s.Host with
          | (.error err, w1) =>
            ⟨some (), s, state, w1,
              t0 ++ [.FindDatastore s.Datastore s.Host (.error err),
                     .Log ("Error finding the cache datastore. Please remove the item manually: "
                            ++ err)]⟩
          | (.ok ds, w1) =>
            let t1 : List (Event D) := t0 ++ [.FindDatastore s.Datastore s.Host (.ok ds)]
            match UploadedCDPath with
            | .str p =>
              match P.Delete w1 ds p with
              | (some err, w2) =>
                ⟨some (), s, state, w2,
                  t1 ++ [.Delete ds p (some err),
                         .Log ("Error removing item from the cache. Please remove the item manually: "
                                ++ err)]⟩
              | (none, w2) => ⟨some (), s, state, w2, t1 ++ [.Delete ds p none]⟩
            | _ => ⟨none, s, state, w1, t1⟩
        | _ => ⟨none, s, state, w, []⟩
      | _ => ⟨none, s, state, w, []⟩

end StepRemoteUpload

/-! ## The hardware step -/

/-- Go `StepConfigureHardware`; `Config` is a pointer, `none` when nil. -/
structure StepConfigureHardware where
  Config : Option HardwareConfig
  deriving DecidableEq, Repr

namespace StepConfigureHardware

variable {σ D : Type}

/-- Go `(s *StepConfigureHardware) Run(ctx, state) multistep.StepAction`. -/
def Run (P : Platform σ D) (s : StepConfigureHardware) (state : StateBag) (w : σ) :
    Result σ D StepConfigureHardware multistep.StepAction :=
  match state "ui" with
  | some .ui =>
    match state "vm" with
    | some (.vm _) =>
      match s.Config with
      | some c =>
        if c != ({} : HardwareConfig) then
          let config : driver.HardwareConfig :=
            { CPUs := c.CPUs
              CpuCores := c.CpuCores
              CPUReservation := c.CPUReservation
              CPULimit := c.CPULimit
              RAM := c.RAM
              RAMReservation := c.RAMReservation
              RAMReserveAll := c.RAMReserveAll
              NestedHV := c.NestedHV
              CpuHotAddEnabled := c.CpuHotAddEnabled
              MemoryHotAddEnabled := c.MemoryHotAddEnabled
              VideoRAM := c.VideoRAM
              Displays := c.Displays
              VGPUProfile := c.VGPUProfile
              Firmware := c.Firmware
              ForceBIOSSetup := c.ForceBIOSSetup
              VTPMEnabled := c.VTPMEnabled
              VirtualPrecisionClock := c.VirtualPrecisionClock }
          match P.Configure w config with
          | (some err, w1) =>
            ⟨some .ActionHalt, s, state.Put "error" (.error err), w1,
              [.Say "Customizing hardware...", .Configure config (some err)]⟩
          | (none, w1) =>
            ⟨some .ActionContinue, s, state, w1,
              [.Say "Customizing hardware...", .Configure config none]⟩
        else ⟨some .ActionContinue, s, state, w, []⟩
      | none => ⟨none, s, state, w, []⟩
    | _ => ⟨none, s, state, w, []⟩
  | _ => ⟨none, s, state, w, []⟩

end StepConfigureHardware

/-! ## The configuration parameters step -/

/-- Go `ConfigParamsConfig`. -/
structure ConfigParamsConfig where
  ConfigParams : GoMap := none
  ToolsSyncTime : Bool := false
  ToolsUpgradePolicy : Bool := false
  deriving DecidableEq, Repr

/-- Go `StepConfigParams`; `Config` is a pointer, `none` when nil. -/
structure StepConfigParams where
  Config : Option ConfigParamsConfig
  deriving DecidableEq, Repr

namespace StepConfigParams

variable {σ D : Type}

/-- Lines 47 to 58 of `Run`: the tools settings built from the two flags. -/
def toolsInfo (c : ConfigParamsConfig) : Option types.ToolsConfigInfo :=
  if c.ToolsSyncTime || c.ToolsUpgradePolicy then
    let info : types.ToolsConfigInfo := {}
    let info :=
      if c.ToolsSyncTime then { info with SyncTimeWithHost := some c.ToolsSyncTime } else info
    let info :=
      if c.ToolsUpgradePolicy then { info with ToolsUpgradePolicy := "UpgradeAtPowerCycle" }
      else info
    some info
  else none

/-- Go `(s *StepConfigParams) Run(ctx, state) multistep.StepAction`. -/
def Run (P : Platform σ D) (s : StepConfigParams) (state : StateBag) (w : σ) :
    Result σ D StepConfigParams multistep.StepAction :=
  match state "ui" with
  | some .ui =>
    match state "vm" with
    | some (.vm true) =>
      match s.Config with
      | some c =>
        let configParams : GoMap := some []
        let configParams := if c.ConfigParams != none then c.ConfigParams else configParams
        let info := toolsInfo c
        match P.AddConfigParams w configParams info with
        | (some err, w1) =>
          ⟨some .ActionHalt, s,
            state.Put "error" (.error ("error adding configuration parameters: " ++ err)), w1,
            [.Say "Adding configuration parameters...",
             .AddConfigParams configParams info (some err)]⟩
        | (none, w1) =>
          ⟨some .ActionContinue, s, state, w1,
            [.Say "Adding configuration parameters...",
             .AddConfigParams configParams info none]⟩
      | none => ⟨none, s, state, w, []⟩
    | _ => ⟨none, s, state, w, []⟩
  | _ => ⟨none, s, state, w, []⟩

end StepConfigParams

/-! ## Vocabulary of the properties -/

/-- No call of the trace returned an error. -/
def Trace.clean {D : Type} (tr : List (Event D)) : Prop :=
  ∀ e ∈ tr, e.failed = false

/-- The last call of the trace returned an error and no call before it did. -/
def Trace.endsInFailure {D : Type} (tr : List (Event D)) : Prop :=
  ∃ pre e, tr = pre ++ [e] ∧ e.failed = true ∧ Trace.clean pre

namespace StepRemoteUpload

variable {σ D : Type}

/-- The trace of `uploadFile` when the file is already on the datastore. -/
def existsTrace (P : Platform σ D) (s : StepRemoteUpload) (path : String) (ds : D) :
    List (Event D) :=
  [.FindDatastore s.Datastore s.Host (.ok ds),
   .FileExists ds (GetRemoteDirectoryAndPath path (P.Name ds)).2.1 true,
   .Say ("File " ++ (GetRemoteDirectoryAndPath path (P.Name ds)).2.2.2
          ++ " already exists; skipping upload...")]

end StepRemoteUpload

/-- The contract of a `Run` that started on the bag `state`: it returns `Halt`
exactly when one of its calls returned an error; then that call is the last one
made and an error value is in the bag under `error`; when it returns `Continue`
the value under `error` is the one the bag had. -/
def haltsExactlyOnError {σ D S : Type} (state : StateBag)
    (r : Result σ D S multistep.StepAction) : Prop :=
  (r.ret = some .ActionHalt ↔ ∃ e ∈ r.trace, e.failed = true)
    ∧ (r.ret = some .ActionHalt
        → Trace.endsInFailure r.trace ∧ ∃ msg, r.state "error" = some (.error msg))
    ∧ (r.ret = some .ActionContinue → r.state "error" = state "error")

/-- How a `Run` that started on the bag `state` ends, by what it returns: a
`Halt` after a trace that ends in its one failed call, with an error put under
`error`; a `Continue` after a trace without a failed call, the value under
`error` untouched; a panic after a trace without a failed call. -/
def runShape {σ D S : Type} (state : StateBag) (r : Result σ D S multistep.StepAction) :
    Prop :=
  match r.ret with
  | some .ActionHalt =>
    Trace.endsInFailure r.trace ∧ ∃ msg, r.state "error" = some (.error msg)
  | some .ActionContinue => Trace.clean r.trace ∧ r.state "error" = state "error"
  | none => Trace.clean r.trace

/-- At least one of the markers that let `Cleanup` past its first test is in the
bag: cancelled, halted or `remote_cache_cleanup`. -/
def cleanupMarked (state : StateBag) : Prop :=
  (state multistep.StateCancelled).isSome = true ∨ (state multistep.StateHalted).isSome = true
    ∨ (state "remote_cache_cleanup").isSome = true

/-! ## A concrete platform -/

/-- A small platform for concrete runs. The world is the list of remote relative
paths that hold a file; a datastore handle is its name; the empty name resolves
to no datastore; an upload adds its destination to the world; when `broken` is
set, every call that changes the platform fails. -/
def Platform.cache (broken : Bool) : Platform (List String) String where
  FindDatastore := fun w name _ =>
    if name = "" then (.error "datastore not found", w) else (.ok name, w)
  Name := fun ds => ds
  FileExists := fun w _ p => (decide (p ∈ w), w)
  DirExists := fun w _ _ => (false, w)
  MakeDirectory := fun w _ _ => if broken then (some "permission denied", w) else (none, w)
  UploadFile := fun w _ _ dst _ _ =>
    if broken then (some "permission denied", w) else (none, dst :: w)
  Delete := fun w _ _ => if broken then (some "permission denied", w) else (none, w)
  Configure := fun w _ => if broken then (some "permission denied", w) else (none, w)
  AddConfigParams := fun w _ _ => if broken then (some "permission denied", w) else (none, w)

/-- The bag that the builder hands to the steps: a `ui`, a vCenter driver and a
virtual machine. -/
def StateBag.base : StateBag :=
  ((StateBag.empty.Put "ui" .ui).Put "driver" (.driver true)).Put "vm" (.vm true)

/-- The step of the concrete runs: uploads go to `datastore1`. -/
def StepRemoteUpload.onDatastore1 : StepRemoteUpload := { Datastore := "datastore1" }

/-- The bag at the cleanup of a run that a later step halted, with an error
recorded, and for which no cleanup of the cache was requested. -/
def StateBag.afterHalt : StateBag :=
  ((StateBag.base.Put "cd_path" (.str "[datastore1] packer_cache/cd.iso")).Put
    "error" (.error "boot failed")).Put multistep.StateHalted (.bool true)

/-- The bag at the start of a run with a Packer-created disk image to upload. -/
def StateBag.withCD : StateBag := StateBag.base.Put "cd_path" (.str "/tmp/cd.iso")

/-- A run of the upload step that ends well, with cleanup of the cache
requested: `cd.iso` is not in the cache of `datastore1` and is uploaded. -/
def StepRemoteUpload.cleanRun :
    Result (List String) String StepRemoteUpload multistep.StepAction :=
  StepRemoteUpload.Run (Platform.cache false)
    { Datastore := "datastore1", RemoteCacheCleanup := true } StateBag.withCD []

/-- A run of the upload step without cleanup of the cache requested: `cd.iso`
is not in the cache of `datastore1` and is uploaded. -/
def StepRemoteUpload.plainRun :
    Result (List String) String StepRemoteUpload multistep.StepAction :=
  StepRemoteUpload.Run (Platform.cache false) StepRemoteUpload.onDatastore1 StateBag.withCD []

/-- A run of the upload step that finds `cd.iso` in the cache of `datastore1`. -/
def StepRemoteUpload.cachedRun :
    Result (List String) String StepRemoteUpload multistep.StepAction :=
  StepRemoteUpload.Run (Platform.cache false) StepRemoteUpload.onDatastore1 StateBag.withCD
    ["packer_cache/cd.iso"]

/-- The bag at the start of a run with a boot image and a disk image to upload. -/
def StateBag.withIsoAndCD : StateBag :=
  (StateBag.base.Put "iso_path" (.str "/tmp/boot.iso")).Put "cd_path" (.str "/tmp/cd.iso")

/-! ## Remote object addressing: the derived names -/

theorem filepath.takeWhile_append_stop {α : Type} (p : α → Bool) (l r : List α) (a : α)
    (hl : ∀ c ∈ l, p c = true) (ha : p a = false) : (l ++ a :: r).takeWhile p = l := by
  induction l with
  | nil => simp [List.takeWhile, ha]
  | cons c l ih =>
    have hc : p c = true := hl c (by simp)
    simp only [List.cons_append, List.takeWhile_cons, hc, if_true]
    rw [ih (fun c hc => hl c (by simp [hc]))]

/-- The model of `filepath.Base` on a joined path: for a directory `d` and a
non-empty name `x` without separator, the base name of `d/x` is `x`. -/
theorem filepath.Base_join (d x : String) (hx : x ≠ "") (hsep : '/' ∉ x.data) :
    filepath.Base (d ++ "/" ++ x) = x := by
  have hdata : (d ++ "/" ++ x).data = d.data ++ '/' :: x.data := by
    simp [String.data_append]
  have hne : d ++ "/" ++ x ≠ "" := by
    intro h
    have := congrArg String.data h
    rw [hdata] at this
    simp at this
  have hxne : x.data ≠ [] := by
    intro h
    apply hx
    cases x
    simp_all
  unfold filepath.Base
  rw [if_neg hne]
  simp only [hdata]
  have hrev : (d.data ++ '/' :: x.data).reverse = x.data.reverse ++ '/' :: d.data.reverse := by
    simp
  have hstrip : filepath.stripTrailingSeparators (d.data ++ '/' :: x.data)
      = d.data ++ '/' :: x.data := by
    unfold filepath.stripTrailingSeparators
    rw [hrev]
    rcases hr : x.data.reverse with _ | ⟨c, rest⟩
    · simp at hr
      exact absurd hr hxne
    · have hc : c ∈ x.data := by
        have : c ∈ x.data.reverse := by rw [hr]; simp
        simpa using this
      have hcne : (c == '/') = false := by
        simp only [beq_eq_false_iff_ne, ne_eq]
        rintro rfl
        exact hsep hc
      simp only [List.cons_append, List.dropWhile_cons, hcne]
      rw [← List.cons_append, ← hr, ← hrev]
      simp
  rw [hstrip]
  unfold filepath.lastElement
  rw [hrev, filepath.takeWhile_append_stop _ _ _ _ _ (by simp)]
  · simp
    intro h
    exact absurd h hxne
  · intro c hc
    simp only [bne_iff_ne, ne_eq]
    rintro rfl
    exact hsep (by simpa using hc)

/-- C9: `GetRemoteDirectoryAndPath` is a function of the local path `p` and the
datastore name `n` alone: the file name is the base name of `p`, the remote
relative path is `packer_cache/` followed by it, the remote directory is `[n]
packer_cache`, the full remote path is the directory, a slash and the file name;
for `/tmp/x.iso` on `datastore1` these are `x.iso`, `packer_cache/x.iso`,
`[datastore1] packer_cache` and `[datastore1] packer_cache/x.iso`. -/
theorem GetRemoteDirectoryAndPath_derivation (p n : String) :
    GetRemoteDirectoryAndPath p n
        = (filepath.Base p, "packer_cache/" ++ filepath.Base p, "[" ++ n ++ "] packer_cache",
           ("[" ++ n ++ "] packer_cache") ++ "/" ++ filepath.Base p)
      ∧ GetRemoteDirectoryAndPath "/tmp/x.iso" "datastore1"
        = ("x.iso", "packer_cache/x.iso", "[datastore1] packer_cache",
           "[datastore1] packer_cache/x.iso") :=
  ⟨rfl, by decide⟩

/-! ## Validation of the hardware configuration -/

namespace HardwareConfig

/-- The first test of `Prepare` is rule (1) broken. -/
theorem reserve_check_iff (c : HardwareConfig) :
    (decide (c.RAMReservation > 0) && c.RAMReserveAll != false) = true ↔ brokenReserve c := by
  simp [brokenReserve]

/-- The second test of `Prepare` is rule (2) broken. -/
theorem firmware_check_iff (c : HardwareConfig) :
    (c.Firmware != "" && c.Firmware != "bios" && c.Firmware != "efi"
        && c.Firmware != "efi-secure") = true ↔ brokenFirmware c := by
  simp [brokenFirmware, and_assoc]

/-- The third test of `Prepare` is rule (3) broken. -/
theorem vtpm_check_iff (c : HardwareConfig) :
    (c.VTPMEnabled && c.Firmware != "efi" && c.Firmware != "efi-secure") = true
      ↔ brokenVTPM c := by
  simp [brokenVTPM, and_assoc]

/-- The fourth test of `Prepare` is rule (4) broken. -/
theorem clock_check_iff (c : HardwareConfig) :
    (c.VirtualPrecisionClock != "" && c.VirtualPrecisionClock != "ptp"
        && c.VirtualPrecisionClock != "ntp" && c.VirtualPrecisionClock != "none") = true
      ↔ brokenClock c := by
  simp only [brokenClock, List.mem_cons, List.mem_singleton, List.not_mem_nil, or_false,
    not_or, Bool.and_eq_true, bne_iff_ne, ne_eq]
  tauto

/-- The list that `Prepare` builds is the list of the specification. -/
theorem Prepare_eq_violationsSpec (c : HardwareConfig) : c.Prepare = c.violationsSpec := by
  unfold Prepare violationsSpec
  simp only [reserve_check_iff, firmware_check_iff, vtpm_check_iff, clock_check_iff]
  split_ifs <;> rfl

end HardwareConfig

/-- C7: `Prepare` collects every violation. Its result is the list with one
entry for each broken rule among (1) memory reservation with reserve-all, (2)
firmware, (3) vTPM without an EFI firmware, (4) precision clock, in that order;
it is empty exactly when no rule is broken; breaking only (1) and (2) gives
exactly two violations; a vTPM-enabled configuration that is otherwise valid is
rejected for the firmware unset or `bios` and accepted for `efi` or
`efi-secure`. -/
theorem HardwareConfig.Prepare_collects_every_violation (c : HardwareConfig) :
    c.Prepare = c.violationsSpec
      ∧ (c.Prepare = []
          ↔ ¬ c.brokenReserve ∧ ¬ c.brokenFirmware ∧ ¬ c.brokenVTPM ∧ ¬ c.brokenClock)
      ∧ (c.brokenReserve ∧ c.brokenFirmware ∧ ¬ c.brokenVTPM ∧ ¬ c.brokenClock
          → c.Prepare = [HardwareConfig.errReserve, HardwareConfig.errFirmware]
            ∧ c.Prepare.length = 2)
      ∧ (c.VTPMEnabled = true ∧ ¬ c.brokenReserve ∧ ¬ c.brokenClock
          → ((c.Firmware = "" ∨ c.Firmware = "bios")
              → c.Prepare = [HardwareConfig.errVTPM] ∧ c.Prepare ≠ [])
            ∧ ((c.Firmware = "efi" ∨ c.Firmware = "efi-secure") → c.Prepare = [])) := by
  rw [HardwareConfig.Prepare_eq_violationsSpec]
  refine ⟨rfl, ?_, ?_, ?_⟩
  · unfold HardwareConfig.violationsSpec
    by_cases h1 : c.brokenReserve <;> by_cases h2 : c.brokenFirmware <;>
      by_cases h3 : c.brokenVTPM <;> by_cases h4 : c.brokenClock <;> simp [h1, h2, h3, h4]
  · rintro ⟨h1, h2, h3, h4⟩
    simp [HardwareConfig.violationsSpec, h1, h2, h3, h4]
  · rintro ⟨hv, h1, h4⟩
    constructor
    · intro hf
      have h2 : ¬ c.brokenFirmware := by
        rcases hf with hf | hf <;> simp [HardwareConfig.brokenFirmware, hf]
      have h3 : c.brokenVTPM := by
        rcases hf with hf | hf <;> simp [HardwareConfig.brokenVTPM, hf, hv]
      simp [HardwareConfig.violationsSpec, h1, h2, h3, h4]
    · intro hf
      have h2 : ¬ c.brokenFirmware := by
        rcases hf with hf | hf <;> simp [HardwareConfig.brokenFirmware, hf]
      have h3 : ¬ c.brokenVTPM := by
        rcases hf with hf | hf <;> simp [HardwareConfig.brokenVTPM, hf]
      simp [HardwareConfig.violationsSpec, h1, h2, h3, h4]

/-- C7 at concrete configurations: a reservation of 512 with reserve-all and the
firmware `uefi` gives the two violations; vTPM with `bios` is rejected and vTPM
with `efi` is accepted. -/
theorem HardwareConfig.Prepare_collects_every_violation_witness :
    HardwareConfig.Prepare { RAMReservation := 512, RAMReserveAll := true, Firmware := "uefi" }
        = [HardwareConfig.errReserve, HardwareConfig.errFirmware]
      ∧ HardwareConfig.Prepare { VTPMEnabled := true, Firmware := "bios" }
        = [HardwareConfig.errVTPM]
      ∧ HardwareConfig.Prepare { VTPMEnabled := true, Firmware := "efi" } = [] :=
  ⟨((HardwareConfig.Prepare_collects_every_violation
        { RAMReservation := 512, RAMReserveAll := true, Firmware := "uefi" }).2.2.1
      (by decide)).1,
    (((HardwareConfig.Prepare_collects_every_violation
        { VTPMEnabled := true, Firmware := "bios" }).2.2.2 (by decide)).1
      (Or.inr rfl)).1,
    ((HardwareConfig.Prepare_collects_every_violation
        { VTPMEnabled := true, Firmware := "efi" }).2.2.2 (by decide)).2 (Or.inl rfl)⟩

/-! ## Traces -/

theorem Trace.clean_append {D : Type} {a b : List (Event D)} (ha : Trace.clean a)
    (hb : Trace.clean b) : Trace.clean (a ++ b) := by
  intro e he
  rcases List.mem_append.mp he with h | h
  · exact ha e h
  · exact hb e h

/-- The empty trace has no failed call. -/
theorem Trace.clean_nil {D : Type} : Trace.clean ([] : List (Event D)) := by
  intro e he
  cases he

/-- Calls without failure before a trace that ends in its one failure. -/
theorem Trace.endsInFailure_append {D : Type} {a b : List (Event D)} (ha : Trace.clean a)
    (hb : Trace.endsInFailure b) : Trace.endsInFailure (a ++ b) := by
  obtain ⟨pre, e, rfl, he, hpre⟩ := hb
  exact ⟨a ++ pre, e, by simp, he, Trace.clean_append ha hpre⟩

/-- A trace that ends in a failure has a failed call. -/
theorem Trace.endsInFailure_exists {D : Type} {tr : List (Event D)}
    (h : Trace.endsInFailure tr) : ∃ e ∈ tr, e.failed = true := by
  obtain ⟨pre, e, rfl, he, _⟩ := h
  exact ⟨e, by simp, he⟩

/-- A trace without a failed call has none. -/
theorem Trace.clean_not_exists {D : Type} {tr : List (Event D)} (h : Trace.clean tr) :
    ¬ ∃ e ∈ tr, e.failed = true := by
  rintro ⟨e, he, hf⟩
  simp [h e he] at hf

/-! ## The upload: `uploadFile` -/

namespace StepRemoteUpload

variable {σ D : Type}

/-- The result of `uploadFile` when the file is already on the datastore. -/
theorem uploadFile_of_fileExists (P : Platform σ D) (s : StepRemoteUpload) (path : String)
    (w w1 w2 : σ) (ds : D)
    (hfind : P.FindDatastore w s.Datastore s.Host = (.ok ds, w1))
    (hexists : P.FileExists w1 ds (GetRemoteDirectoryAndPath path (P.Name ds)).2.1 = (true, w2)) :
    s.uploadFile P path w
      = (.ok (GetRemoteDirectoryAndPath path (P.Name ds)).2.2.2, w2, existsTrace P s path ds) := by
  unfold uploadFile
  simp only [hfind]
  simp only [GetRemoteDirectoryAndPath] at hexists ⊢
  simp only [hexists]
  rfl

/-- The calls of `uploadFile` up to a failure: an error result means that the
last call failed and none before it; a path result means that no call failed. -/
theorem uploadFile_shape (P : Platform σ D) (s : StepRemoteUpload) (path : String) (w : σ) :
    match (s.uploadFile P path w).1 with
    | .ok _ => Trace.clean (s.uploadFile P path w).2.2
    | .error _ => Trace.endsInFailure (s.uploadFile P path w).2.2 := by
  unfold uploadFile
  rcases hfind : P.FindDatastore w s.Datastore s.Host with ⟨_ | ds, w1⟩
  · exact ⟨[], _, rfl, rfl, Trace.clean_nil⟩
  · simp only [GetRemoteDirectoryAndPath]
    rcases hfe : P.FileExists w1 ds ("packer_cache/" ++ filepath.Base path) with ⟨_ | _, w2⟩
    · simp only
      rcases hde : P.DirExists w2 ds ("packer_cache/" ++ filepath.Base path) with ⟨_ | _, w3⟩
      · simp only
        rcases hmk : P.MakeDirectory w3 ds ("[" ++ P.Name ds ++ "] packer_cache")
          with ⟨_ | err, w4⟩
        · simp only
          rcases hup : P.UploadFile w4 ds path ("packer_cache/" ++ filepath.Base path) s.Host
            s.SetHostForDatastoreUploads with ⟨_ | err, w5⟩
          · simp [Trace.clean, Event.failed]
          · exact ⟨_, _, rfl, rfl, by simp [Trace.clean, Event.failed]⟩
        · exact ⟨_, _, rfl, rfl, by simp [Trace.clean, Event.failed]⟩
      · simp only
        rcases hup : P.UploadFile w3 ds path ("packer_cache/" ++ filepath.Base path) s.Host
          s.SetHostForDatastoreUploads with ⟨_ | err, w5⟩
        · simp [Trace.clean, Event.failed]
        · exact ⟨_, _, rfl, rfl, by simp [Trace.clean, Event.failed]⟩
    · simp [Trace.clean, Event.failed]

/-- The first upload of an absent file, when directory creation and upload
succeed: the full remote path is returned, exactly one `UploadFile` call is made
and the world after the call is the one that this `UploadFile` returned. -/
theorem uploadFile_of_absent (P : Platform σ D) (s : StepRemoteUpload) (path : String)
    (w w1 : σ) (ds : D)
    (hfind : P.FindDatastore w s.Datastore s.Host = (.ok ds, w1))
    (hmk : ∀ v p, (P.MakeDirectory v ds p).1 = none)
    (hup : ∀ v src dst host b, (P.UploadFile v ds src dst host b).1 = none)
    (habsent : (P.FileExists w1 ds (GetRemoteDirectoryAndPath path (P.Name ds)).2.1).1 = false) :
    (s.uploadFile P path w).1 = .ok (GetRemoteDirectoryAndPath path (P.Name ds)).2.2.2
      ∧ ((s.uploadFile P path w).2.2.filter Event.isUploadFile).length = 1
      ∧ ∃ v, (s.uploadFile P path w).2.1
          = (P.UploadFile v ds path (GetRemoteDirectoryAndPath path (P.Name ds)).2.1 s.Host
              s.SetHostForDatastoreUploads).2 := by
  unfold uploadFile
  simp only [hfind]
  simp only [GetRemoteDirectoryAndPath] at habsent ⊢
  rcases hfe : P.FileExists w1 ds ("packer_cache/" ++ filepath.Base path) with ⟨_ | _, w2⟩
  · simp only
    rcases hde : P.DirExists w2 ds ("packer_cache/" ++ filepath.Base path) with ⟨_ | _, w3⟩
    · simp only
      rcases hm : P.MakeDirectory w3 ds ("[" ++ P.Name ds ++ "] packer_cache")
        with ⟨_ | err, w4⟩
      · simp only
        rcases hu : P.UploadFile w4 ds path ("packer_cache/" ++ filepath.Base path) s.Host
          s.SetHostForDatastoreUploads with ⟨_ | err, w5⟩
        · refine ⟨rfl, by simp [Event.isUploadFile], w4, ?_⟩
          rw [hu]
        · have := hup w4 path ("packer_cache/" ++ filepath.Base path) s.Host
            s.SetHostForDatastoreUploads
          rw [hu] at this
          cases this
      · have := hmk w3 ("[" ++ P.Name ds ++ "] packer_cache")
        rw [hm] at this
        cases this
    · simp only
      rcases hu : P.UploadFile w3 ds path ("packer_cache/" ++ filepath.Base path) s.Host
        s.SetHostForDatastoreUploads with ⟨_ | err, w5⟩
      · refine ⟨rfl, by simp [Event.isUploadFile], w3, ?_⟩
        rw [hu]
      · have := hup w3 path ("packer_cache/" ++ filepath.Base path) s.Host
          s.SetHostForDatastoreUploads
        rw [hu] at this
        cases this
  · rw [hfe] at habsent
    cases habsent

end StepRemoteUpload

/-- C3: when `FindDatastore` resolves a datastore and `FileExists` reports true
for the derived remote relative path, `uploadFile` returns the full remote path
with a nil error and makes no `DirExists`, `MakeDirectory` or `UploadFile` call:
its calls are `FindDatastore`, `FileExists` and one `ui.Say`. -/
theorem StepRemoteUpload.uploadFile_skips_existing_file {σ D : Type} (P : Platform σ D)
    (s : StepRemoteUpload) (path : String) (w w1 : σ) (ds : D)
    (hfind : P.FindDatastore w s.Datastore s.Host = (.ok ds, w1))
    (hexists : (P.FileExists w1 ds (GetRemoteDirectoryAndPath path (P.Name ds)).2.1).1 = true) :
    (s.uploadFile P path w).1 = .ok (GetRemoteDirectoryAndPath path (P.Name ds)).2.2.2
      ∧ (s.uploadFile P path w).2.2 = StepRemoteUpload.existsTrace P s path ds
      ∧ ∀ e ∈ (s.uploadFile P path w).2.2,
          e.isDirExists = false ∧ e.isMakeDirectory = false ∧ e.isUploadFile = false := by
  have h := StepRemoteUpload.uploadFile_of_fileExists P s path w w1
    (P.FileExists w1 ds (GetRemoteDirectoryAndPath path (P.Name ds)).2.1).2 ds hfind
    (by rw [← hexists])
  rw [h]
  refine ⟨rfl, rfl, ?_⟩
  intro e he
  simp only [StepRemoteUpload.existsTrace, List.mem_cons, List.mem_singleton,
    List.not_mem_nil, or_false] at he
  rcases he with rfl | rfl | rfl <;> exact ⟨rfl, rfl, rfl⟩

/-- C3 on the concrete platform: `/tmp/x.iso` is already in the cache of
`datastore1`. -/
theorem StepRemoteUpload.uploadFile_skips_existing_file_witness :
    (StepRemoteUpload.uploadFile (Platform.cache false) { Datastore := "datastore1" }
        "/tmp/x.iso" ["packer_cache/x.iso"]).1 = .ok "[datastore1] packer_cache/x.iso"
      ∧ (StepRemoteUpload.uploadFile (Platform.cache false) { Datastore := "datastore1" }
        "/tmp/x.iso" ["packer_cache/x.iso"]).2.2
        = [.FindDatastore "datastore1" "" (.ok "datastore1"),
           .FileExists "datastore1" "packer_cache/x.iso" true,
           .Say "File [datastore1] packer_cache/x.iso already exists; skipping upload..."] := by
  have h := StepRemoteUpload.uploadFile_skips_existing_file (Platform.cache false)
    { Datastore := "datastore1" } "/tmp/x.iso" ["packer_cache/x.iso"] ["packer_cache/x.iso"]
    "datastore1" (by decide) (by decide)
  refine ⟨h.1.trans (by decide), h.2.1.trans (by decide)⟩

/-- C4: over a datastore on which a successful `UploadFile` to a remote path
makes `FileExists` true for that path, with the file absent at first and the
collaborator calls succeeding (`FindDatastore` resolves the same datastore and
leaves the world as it is), two successive calls of `uploadFile` with the same
local path make exactly one `UploadFile` call in total; the second call returns
through the existence check; both return the same full remote path. -/
theorem StepRemoteUpload.uploadFile_twice_uploads_once {σ D : Type} (P : Platform σ D)
    (s : StepRemoteUpload) (path : String) (w0 : σ) (ds : D)
    (hfind : ∀ w, P.FindDatastore w s.Datastore s.Host = (.ok ds, w))
    (hmk : ∀ w p, (P.MakeDirectory w ds p).1 = none)
    (hup : ∀ w src dst host b, (P.UploadFile w ds src dst host b).1 = none)
    (hmodel : ∀ w src dst host b, (P.UploadFile w ds src dst host b).1 = none →
      (P.FileExists (P.UploadFile w ds src dst host b).2 ds dst).1 = true)
    (habsent : (P.FileExists w0 ds (GetRemoteDirectoryAndPath path (P.Name ds)).2.1).1 = false) :
    (s.uploadFile P path w0).1 = .ok (GetRemoteDirectoryAndPath path (P.Name ds)).2.2.2
      ∧ (s.uploadFile P path (s.uploadFile P path w0).2.1).1
          = .ok (GetRemoteDirectoryAndPath path (P.Name ds)).2.2.2
      ∧ (s.uploadFile P path (s.uploadFile P path w0).2.1).2.2
          = StepRemoteUpload.existsTrace P s path ds
      ∧ (((s.uploadFile P path w0).2.2
            ++ (s.uploadFile P path (s.uploadFile P path w0).2.1).2.2).filter
              Event.isUploadFile).length = 1 := by
  obtain ⟨h1, h2, v, h3⟩ :=
    StepRemoteUpload.uploadFile_of_absent P s path w0 w0 ds (hfind w0) hmk hup habsent
  have hex : (P.FileExists (s.uploadFile P path w0).2.1 ds
      (GetRemoteDirectoryAndPath path (P.Name ds)).2.1).1 = true := by
    rw [h3]
    exact hmodel v _ _ _ _ (hup v _ _ _ _)
  have hsecond := StepRemoteUpload.uploadFile_of_fileExists P s path
    (s.uploadFile P path w0).2.1 (s.uploadFile P path w0).2.1
    (P.FileExists (s.uploadFile P path w0).2.1 ds
      (GetRemoteDirectoryAndPath path (P.Name ds)).2.1).2 ds
    (hfind _) (by rw [← hex])
  refine ⟨h1, ?_, ?_, ?_⟩
  · rw [hsecond]
  · rw [hsecond]
  · rw [List.filter_append, List.length_append, h2, hsecond]
    simp [StepRemoteUpload.existsTrace, Event.isUploadFile]

/-- C4 on the concrete platform, whose uploads add the destination to the list
of files: `/tmp/x.iso` is uploaded to the empty cache of `datastore1` twice. -/
theorem StepRemoteUpload.uploadFile_twice_uploads_once_witness :
    (StepRemoteUpload.uploadFile (Platform.cache false) { Datastore := "datastore1" }
        "/tmp/x.iso" []).1 = .ok "[datastore1] packer_cache/x.iso"
      ∧ (((StepRemoteUpload.uploadFile (Platform.cache false) { Datastore := "datastore1" }
            "/tmp/x.iso" []).2.2
          ++ (StepRemoteUpload.uploadFile (Platform.cache false) { Datastore := "datastore1" }
            "/tmp/x.iso"
            (StepRemoteUpload.uploadFile (Platform.cache false) { Datastore := "datastore1" }
              "/tmp/x.iso" []).2.1).2.2).filter Event.isUploadFile).length = 1 := by
  have h := StepRemoteUpload.uploadFile_twice_uploads_once (Platform.cache false)
    { Datastore := "datastore1" } "/tmp/x.iso" [] "datastore1"
    (fun w => by simp [Platform.cache]) (fun w p => by simp [Platform.cache])
    (fun w src dst host b => by simp [Platform.cache])
    (fun w src dst host b _ => by simp [Platform.cache]) (by decide)
  exact ⟨h.1.trans (by decide), h.2.2.2⟩

/-! ## Cleanup of the upload step -/

namespace StepRemoteUpload

variable {σ D : Type}

/-- The step and the bag are the same after `Cleanup`, whatever it did. -/
theorem Cleanup_frame (P : Platform σ D) (s : StepRemoteUpload) (state : StateBag) (w : σ) :
    (s.Cleanup P state w).state = state ∧ (s.Cleanup P state w).step = s := by
  unfold Cleanup
  simp only
  repeat' split
  all_goals exact ⟨rfl, rfl⟩

/-- When `Cleanup` calls `Delete`. -/
theorem Cleanup_delete_iff (P : Platform σ D) (s : StepRemoteUpload) (state : StateBag) (w : σ) :
    (∃ e ∈ (s.Cleanup P state w).trace, e.isDelete = true)
      ↔ cleanupMarked state ∧ s.UploadedCustomCD = true
        ∧ (∃ p, state "cd_path" = some (.str p))
        ∧ state "ui" = some .ui ∧ state "driver" = some (.driver true)
        ∧ ∃ ds, (P.FindDatastore w s.Datastore s.Host).1 = .ok ds := by
  unfold Cleanup cleanupMarked StateBag.GetOk
  simp only
  split_ifs with h1 h2
  · simp at h1
    simp [h1]
  · simp at h2
    simp [h2]
  · simp at h1 h2
    have hm : (state multistep.StateCancelled).isSome = true
        ∨ (state multistep.StateHalted).isSome = true
        ∨ (state "remote_cache_cleanup").isSome = true := by
      by_cases hc : (state multistep.StateCancelled).isSome = true
      · exact Or.inl hc
      · by_cases hh : (state multistep.StateHalted).isSome = true
        · exact Or.inr (Or.inl hh)
        · simp at hc hh
          exact Or.inr (Or.inr (by simpa [Option.isSome_iff_ne_none] using h1 hc hh))
    rcases hcd : state "cd_path" with _ | v
    · simp
    · rcases hui : state "ui" with _ | u
      · simp
      · cases u <;> simp
        rcases hdr : state "driver" with _ | d
        · simp
        · cases d <;> simp
          rename_i b
          cases b
          · simp
          · simp only [hm, h2, true_and]
            rcases hfd : P.FindDatastore w s.Datastore s.Host with ⟨err | ds, w1⟩
            · simp [Event.isDelete]
            · cases v <;> simp [Event.isDelete]
              rename_i p
              rcases hdel : P.Delete w1 ds p with ⟨_ | err, w2⟩ <;> simp [Event.isDelete]

end StepRemoteUpload

/-- On a bag with the ui, a vCenter driver and a string under `cd_path` (when
present) `Cleanup` returns, whatever `FindDatastore` and `Delete` answer. -/
theorem StepRemoteUpload.Cleanup_returns {σ D : Type} (P : Platform σ D)
    (s : StepRemoteUpload) (state : StateBag) (w : σ) (hui : state "ui" = some .ui)
    (hdriver : state "driver" = some (.driver true))
    (hcd : ∀ v, state "cd_path" = some v → ∃ p, v = .str p) :
    (s.Cleanup P state w).ret = some () := by
  unfold StepRemoteUpload.Cleanup StateBag.GetOk
  simp only [hui, hdriver]
  split_ifs
  · rfl
  · rfl
  · rcases hv : state "cd_path" with _ | v
    · rfl
    · obtain ⟨p, rfl⟩ := hcd v hv
      simp only
      rcases hfd : P.FindDatastore w s.Datastore s.Host with ⟨err | ds, w1⟩
      · rfl
      · simp only
        rcases hdel : P.Delete w1 ds p with ⟨_ | err, w2⟩ <;> rfl

/-- C1, as the code has it: `Cleanup` issues a datastore `Delete` exactly when
at least one of the cancelled, halted and `remote_cache_cleanup` markers is in
the bag, the step has `UploadedCustomCD` set, `cd_path` holds a string, the bag
holds the ui and a vCenter driver, and `FindDatastore` succeeds. Hence for every
bag and step where `UploadedCustomCD` is false or none of the three markers is
present, `Cleanup` makes no call at all. -/
theorem StepRemoteUpload.Cleanup_deletes_only_when_marked {σ D : Type} (P : Platform σ D)
    (s : StepRemoteUpload) (state : StateBag) (w : σ) :
    ((∃ e ∈ (s.Cleanup P state w).trace, e.isDelete = true)
        ↔ cleanupMarked state ∧ s.UploadedCustomCD = true
          ∧ (∃ p, state "cd_path" = some (.str p))
          ∧ state "ui" = some .ui ∧ state "driver" = some (.driver true)
          ∧ ∃ ds, (P.FindDatastore w s.Datastore s.Host).1 = .ok ds)
      ∧ (¬ cleanupMarked state ∨ s.UploadedCustomCD = false
          → (s.Cleanup P state w).trace = []) := by
  refine ⟨StepRemoteUpload.Cleanup_delete_iff P s state w, ?_⟩
  intro h
  unfold StepRemoteUpload.Cleanup StateBag.GetOk
  simp only
  split_ifs with h1 h2
  · rfl
  · rfl
  · exfalso
    rcases h with h | h
    · apply h
      simp only [Bool.and_eq_true, Bool.not_eq_true', not_and, Bool.not_eq_false] at h1
      unfold cleanupMarked
      by_cases hc : (state multistep.StateCancelled).isSome = true
      · exact Or.inl hc
      · by_cases hh : (state multistep.StateHalted).isSome = true
        · exact Or.inr (Or.inl hh)
        · exact Or.inr (Or.inr (h1 ⟨by simpa using hc, by simpa using hh⟩))
    · simp [h] at h2

/-- C1 as stated fails. A run uploads `cd.iso` with cleanup of the cache
requested and ends well: the bag has neither the halted nor the cancelled
marker, and `Cleanup` deletes the file. Another run uploads it without cleanup
requested and a later step halts: the bag has no `remote_cache_cleanup`, and
`Cleanup` deletes the file. -/
theorem StepRemoteUpload.Cleanup_deletes_without_all_three :
    (StepRemoteUpload.cleanRun.ret = some .ActionContinue
        ∧ StepRemoteUpload.cleanRun.state multistep.StateCancelled = none
        ∧ StepRemoteUpload.cleanRun.state multistep.StateHalted = none
        ∧ (StepRemoteUpload.Cleanup (Platform.cache false) StepRemoteUpload.cleanRun.step
              StepRemoteUpload.cleanRun.state StepRemoteUpload.cleanRun.world).trace
            = [.Say "Removing [datastore1] packer_cache/cd.iso...",
               .FindDatastore "datastore1" "" (.ok "datastore1"),
               .Delete "datastore1" "[datastore1] packer_cache/cd.iso" none])
      ∧ (StepRemoteUpload.plainRun.ret = some .ActionContinue
        ∧ StepRemoteUpload.plainRun.state "remote_cache_cleanup" = none
        ∧ (StepRemoteUpload.Cleanup (Platform.cache false) StepRemoteUpload.plainRun.step
              (StepRemoteUpload.plainRun.state.Put multistep.StateHalted (.bool true))
              StepRemoteUpload.plainRun.world).trace
            = [.Say "Removing [datastore1] packer_cache/cd.iso...",
               .FindDatastore "datastore1" "" (.ok "datastore1"),
               .Delete "datastore1" "[datastore1] packer_cache/cd.iso" none]) := by
  decide

/-- C6: `Cleanup` never writes to the state bag. For every bag, step and outcome
of `FindDatastore` and `Delete` the bag after `Cleanup` is the bag before it, so
the value under `error` is neither altered nor cleared; and on a bag that holds
the ui, a vCenter driver and a string under `cd_path` (when present), `Cleanup`
returns normally whether or not those calls fail. -/
theorem StepRemoteUpload.Cleanup_never_writes_state {σ D : Type} (P : Platform σ D)
    (s : StepRemoteUpload) (state : StateBag) (w : σ) :
    (s.Cleanup P state w).state = state
      ∧ (s.Cleanup P state w).state "error" = state "error"
      ∧ (s.Cleanup P state w).step = s
      ∧ (state "ui" = some .ui → state "driver" = some (.driver true)
          → (∀ v, state "cd_path" = some v → ∃ p, v = .str p)
          → (s.Cleanup P state w).ret = some ()) := by
  obtain ⟨h1, h2⟩ := StepRemoteUpload.Cleanup_frame P s state w
  exact ⟨h1, by rw [h1], h2, StepRemoteUpload.Cleanup_returns P s state w⟩

/-- C6 on a halted run whose `Delete` fails: the deletion is attempted, it
fails, `Cleanup` returns and the recorded error is still in the bag. -/
theorem StepRemoteUpload.Cleanup_never_writes_state_witness :
    (StepRemoteUpload.Cleanup (Platform.cache true)
          { StepRemoteUpload.onDatastore1 with UploadedCustomCD := true }
          StateBag.afterHalt []).trace
        = [.Say "Removing [datastore1] packer_cache/cd.iso...",
           .FindDatastore "datastore1" "" (.ok "datastore1"),
           .Delete "datastore1" "[datastore1] packer_cache/cd.iso" (some "permission denied"),
           .Log ("Error removing item from the cache. Please remove the item manually: "
                  ++ "permission denied")]
      ∧ (StepRemoteUpload.Cleanup (Platform.cache true)
          { StepRemoteUpload.onDatastore1 with UploadedCustomCD := true }
          StateBag.afterHalt []).state "error" = some (.error "boot failed")
      ∧ (StepRemoteUpload.Cleanup (Platform.cache true)
          { StepRemoteUpload.onDatastore1 with UploadedCustomCD := true }
          StateBag.afterHalt []).ret = some () := by
  have h := StepRemoteUpload.Cleanup_never_writes_state (Platform.cache true)
    { StepRemoteUpload.onDatastore1 with UploadedCustomCD := true } StateBag.afterHalt []
  refine ⟨by decide, h.2.1.trans (by decide), h.2.2.2 (by decide) (by decide) ?_⟩
  intro v hv
  exact ⟨"[datastore1] packer_cache/cd.iso", by
    have h0 : StateBag.afterHalt "cd_path"
        = some (.str "[datastore1] packer_cache/cd.iso") := by decide
    rw [h0] at hv
    exact (Option.some.inj hv).symm⟩

/-! ## Cleanup after a skipped upload -/

/-- Without `iso_path` in the bag, `Run` is its `cd_path` block. -/
theorem StepRemoteUpload.Run_reaches_cdBlock {σ D : Type} (P : Platform σ D)
    (s : StepRemoteUpload) (state : StateBag) (w : σ) (hui : state "ui" = some .ui)
    (hdriver : ∃ b, state "driver" = some (.driver b)) (hiso : state "iso_path" = none) :
    s.Run P state w = StepRemoteUpload.Run.cdBlock P s state w [] := by
  obtain ⟨b, hdriver⟩ := hdriver
  unfold StepRemoteUpload.Run StateBag.GetOk
  simp only [hui, hdriver, hiso]

/-- After a successful `iso_path` upload, `Run` goes on with its `cd_path` block
in the world and with the calls that this upload left. -/
theorem StepRemoteUpload.Run_reaches_cdBlock_after_iso {σ D : Type} (P : Platform σ D)
    (s : StepRemoteUpload) (state : StateBag) (w w1 : σ) (t1 : List (Event D))
    (p full : String) (hui : state "ui" = some .ui)
    (hdriver : ∃ b, state "driver" = some (.driver b))
    (hiso : state "iso_path" = some (.str p))
    (hup : s.uploadFile P p w = (.ok full, w1, t1)) :
    s.Run P state w
      = StepRemoteUpload.Run.cdBlock P s (state.Put "iso_remote_path" (.str full)) w1 t1 := by
  obtain ⟨b, hdriver⟩ := hdriver
  unfold StepRemoteUpload.Run StateBag.GetOk
  simp only [hui, hdriver, hiso, hup]

/-- The `cd_path` block of `Run` when the file is already on the datastore: no
upload, the flag `UploadedCustomCD` is set all the same and `cd_path` becomes
the full remote path. -/
theorem StepRemoteUpload.cdBlock_of_fileExists {σ D : Type} (P : Platform σ D)
    (s : StepRemoteUpload) (state : StateBag) (w w1 : σ) (tr : List (Event D)) (p : String)
    (ds : D) (hcd : state "cd_path" = some (.str p))
    (hfind : P.FindDatastore w s.Datastore s.Host = (.ok ds, w1))
    (hexists : (P.FileExists w1 ds (GetRemoteDirectoryAndPath p (P.Name ds)).2.1).1 = true) :
    StepRemoteUpload.Run.cdBlock P s state w tr
      = StepRemoteUpload.Run.finish { s with UploadedCustomCD := true }
          (state.Put "cd_path" (.str (GetRemoteDirectoryAndPath p (P.Name ds)).2.2.2))
          (P.FileExists w1 ds (GetRemoteDirectoryAndPath p (P.Name ds)).2.1).2
          (tr ++ StepRemoteUpload.existsTrace P s p ds) := by
  unfold StepRemoteUpload.Run.cdBlock StateBag.GetOk
  simp only [hcd]
  rw [StepRemoteUpload.uploadFile_of_fileExists P s p w w1 _ ds hfind (by rw [← hexists])]

/-- C2, as the code has it: when `Run` reaches its `cd_path` block (in the bag
`state1` and the world `w1`, after the calls `tr1`) and the file is already on
the datastore, `Run` makes no upload for it and continues, and it still sets
`UploadedCustomCD` and rewrites `cd_path`. A later `Cleanup` of the resulting
step, on any bag, then calls `Delete` exactly when one of the halted, cancelled
and `remote_cache_cleanup` markers is present (and `cd_path` holds a string, the
bag holds the ui and a vCenter driver, and `FindDatastore` succeeds); with none
of the three markers it makes no call. -/
theorem StepRemoteUpload.Cleanup_after_skipped_upload {σ D : Type} (P : Platform σ D)
    (s : StepRemoteUpload) (state state1 : StateBag) (w w1 w2 : σ) (tr1 : List (Event D))
    (p : String) (ds : D)
    (hreach : s.Run P state w = StepRemoteUpload.Run.cdBlock P s state1 w1 tr1)
    (hcd : state1 "cd_path" = some (.str p))
    (hfind : P.FindDatastore w1 s.Datastore s.Host = (.ok ds, w2))
    (hexists : (P.FileExists w2 ds (GetRemoteDirectoryAndPath p (P.Name ds)).2.1).1 = true) :
    (s.Run P state w).ret = some .ActionContinue
      ∧ (s.Run P state w).trace = tr1 ++ StepRemoteUpload.existsTrace P s p ds
      ∧ (s.Run P state w).step = { s with UploadedCustomCD := true }
      ∧ (s.Run P state w).state "cd_path"
          = some (.str (GetRemoteDirectoryAndPath p (P.Name ds)).2.2.2)
      ∧ ∀ (state' : StateBag) (w' : σ),
          ((∃ e ∈ ((s.Run P state w).step.Cleanup P state' w').trace, e.isDelete = true)
            ↔ cleanupMarked state' ∧ (∃ q, state' "cd_path" = some (.str q))
              ∧ state' "ui" = some .ui ∧ state' "driver" = some (.driver true)
              ∧ ∃ ds', (P.FindDatastore w' s.Datastore s.Host).1 = .ok ds')
          ∧ (¬ cleanupMarked state'
              → ((s.Run P state w).step.Cleanup P state' w').trace = []) := by
  rw [hreach, StepRemoteUpload.cdBlock_of_fileExists P s state1 w1 w2 tr1 p ds hcd hfind hexists]
  refine ⟨rfl, rfl, rfl, ?_, ?_⟩
  · unfold StepRemoteUpload.Run.finish
    by_cases hr : s.RemoteCacheCleanup = true <;> simp [hr, StateBag.Put]
  · intro state' w'
    simp only [StepRemoteUpload.Run.finish]
    constructor
    · rw [StepRemoteUpload.Cleanup_delete_iff]
      simp
    · intro hm
      unfold StepRemoteUpload.Cleanup StateBag.GetOk
      simp only
      split_ifs with h1 h2
      · rfl
      · rfl
      · exfalso
        apply hm
        simp only [Bool.and_eq_true, Bool.not_eq_true', not_and, Bool.not_eq_false] at h1
        unfold cleanupMarked
        by_cases hc : (state' multistep.StateCancelled).isSome = true
        · exact Or.inl hc
        · by_cases hh : (state' multistep.StateHalted).isSome = true
          · exact Or.inr (Or.inl hh)
          · exact Or.inr (Or.inr (h1 ⟨by simpa using hc, by simpa using hh⟩))

/-- C2 as stated fails: `cd.iso` is in the cache of `datastore1` before the
run; `Run` makes no `UploadFile` call and continues; a later step halts the run;
`Cleanup` then deletes the file that this run did not upload. -/
theorem StepRemoteUpload.Cleanup_deletes_preexisting_file :
    StepRemoteUpload.cachedRun.trace
        = [.FindDatastore "datastore1" "" (.ok "datastore1"),
           .FileExists "datastore1" "packer_cache/cd.iso" true,
           .Say "File [datastore1] packer_cache/cd.iso already exists; skipping upload..."]
      ∧ StepRemoteUpload.cachedRun.ret = some .ActionContinue
      ∧ (StepRemoteUpload.Cleanup (Platform.cache false) StepRemoteUpload.cachedRun.step
          (StepRemoteUpload.cachedRun.state.Put multistep.StateHalted (.bool true))
          StepRemoteUpload.cachedRun.world).trace
        = [.Say "Removing [datastore1] packer_cache/cd.iso...",
           .FindDatastore "datastore1" "" (.ok "datastore1"),
           .Delete "datastore1" "[datastore1] packer_cache/cd.iso" none] := by
  decide

/-- C2 amended, on the concrete platform: after the skipped upload of `cd.iso`
the flag is set, and a cleanup on the resulting bag, which has none of the
three markers, makes no call. -/
theorem StepRemoteUpload.Cleanup_after_skipped_upload_witness :
    StepRemoteUpload.cachedRun.step.UploadedCustomCD = true
      ∧ (StepRemoteUpload.Cleanup (Platform.cache false) StepRemoteUpload.cachedRun.step
          StepRemoteUpload.cachedRun.state StepRemoteUpload.cachedRun.world).trace = [] := by
  have h := StepRemoteUpload.Cleanup_after_skipped_upload (Platform.cache false)
    StepRemoteUpload.onDatastore1 StateBag.withCD StateBag.withCD ["packer_cache/cd.iso"]
    ["packer_cache/cd.iso"] ["packer_cache/cd.iso"] [] "/tmp/cd.iso" "datastore1"
    rfl (by decide) (by decide) (by decide)
  refine ⟨congrArg StepRemoteUpload.UploadedCustomCD h.2.2.1,
    (h.2.2.2.2 StepRemoteUpload.cachedRun.state StepRemoteUpload.cachedRun.world).2 ?_⟩
  unfold cleanupMarked
  decide

/-! ## Halting on errors -/

theorem haltsExactlyOnError_of_runShape {σ D S : Type} {state : StateBag}
    {r : Result σ D S multistep.StepAction} (h : runShape state r) :
    haltsExactlyOnError state r := by
  unfold runShape at h
  unfold haltsExactlyOnError
  rcases hr : r.ret with _ | a
  · rw [hr] at h
    simp only at h
    simp only [reduceCtorEq, false_iff, false_implies, and_true]
    exact Trace.clean_not_exists h
  · cases a
    · rw [hr] at h
      simp only at h
      simp only [Option.some.injEq, reduceCtorEq, false_iff, false_implies, true_implies,
        true_and]
      exact ⟨Trace.clean_not_exists h.1, h.2⟩
    · rw [hr] at h
      simp only at h
      refine ⟨⟨fun _ => Trace.endsInFailure_exists h.1, fun _ => rfl⟩, fun _ => h, fun hc => ?_⟩
      cases hc


namespace StepRemoteUpload

variable {σ D : Type}

/-- The end of `Run` keeps the shape: it makes no call and leaves `error` alone. -/
theorem finish_shape (s : StepRemoteUpload) (state0 state : StateBag) (w : σ)
    (tr : List (Event D)) (herr : state "error" = state0 "error") (htr : Trace.clean tr) :
    runShape state0 (Run.finish s state w tr) := by
  unfold Run.finish runShape
  refine ⟨htr, ?_⟩
  by_cases hr : s.RemoteCacheCleanup = true <;> simp [hr, StateBag.Put, herr]

/-- The `cd_path` block keeps the shape of the run so far. -/
theorem cdBlock_shape (P : Platform σ D) (s : StepRemoteUpload) (state0 state : StateBag)
    (w : σ) (tr : List (Event D)) (herr : state "error" = state0 "error")
    (htr : Trace.clean tr) : runShape state0 (Run.cdBlock P s state w tr) := by
  unfold Run.cdBlock StateBag.GetOk
  rcases hcd : state "cd_path" with _ | v
  · exact finish_shape s state0 state w tr herr htr
  · cases v
    case str p =>
      have h := uploadFile_shape P s p w
      rcases hu : s.uploadFile P p w with ⟨res, w1, t1⟩
      rw [hu] at h
      cases res
      · simp only [hu]
        show Trace.endsInFailure _ ∧ _
        exact ⟨Trace.endsInFailure_append htr h, _, rfl⟩
      · simp only [hu]
        exact finish_shape _ state0 _ w1 _ (by simp [StateBag.Put, herr])
          (Trace.clean_append htr h)
    all_goals exact htr

/-- The shape of every run of the upload step. -/
theorem upload_Run_shape (P : Platform σ D) (s : StepRemoteUpload) (state : StateBag) (w : σ) :
    runShape state (s.Run P state w) := by
  unfold Run StateBag.GetOk
  rcases hui : state "ui" with _ | u
  · exact Trace.clean_nil
  · cases u
    case ui =>
      rcases hdr : state "driver" with _ | d
      · exact Trace.clean_nil
      · cases d
        case driver b =>
          rcases hiso : state "iso_path" with _ | v
          · exact cdBlock_shape P s state state w [] rfl Trace.clean_nil
          · cases v
            case str p =>
              have h := uploadFile_shape P s p w
              rcases hu : s.uploadFile P p w with ⟨res, w1, t1⟩
              rw [hu] at h
              cases res
              · simp only [hu]
                show Trace.endsInFailure _ ∧ _
                exact ⟨h, _, rfl⟩
              · simp only [hu]
                exact cdBlock_shape P s state _ w1 t1 (by simp [StateBag.Put]) h
            all_goals exact Trace.clean_nil
        all_goals exact Trace.clean_nil
    all_goals exact Trace.clean_nil

/-- The `cd_path` block returns when `cd_path`, if present, holds a string. -/
theorem cdBlock_returns (P : Platform σ D) (s : StepRemoteUpload) (state : StateBag) (w : σ)
    (tr : List (Event D)) (hcd : ∀ v, state "cd_path" = some v → ∃ p, v = .str p) :
    (Run.cdBlock P s state w tr).ret ≠ none := by
  unfold Run.cdBlock StateBag.GetOk
  rcases hv : state "cd_path" with _ | v
  · simp [Run.finish]
  · obtain ⟨p, rfl⟩ := hcd v hv
    simp only
    rcases hu : s.uploadFile P p w with ⟨res, w1, t1⟩
    cases res <;> simp [Run.finish]

/-- `Run` of the upload step returns on a bag that holds the ui, a driver, and
strings under `iso_path` and `cd_path` when they are present. -/
theorem upload_Run_returns (P : Platform σ D) (s : StepRemoteUpload) (state : StateBag) (w : σ)
    (hui : state "ui" = some .ui) (hdriver : ∃ b, state "driver" = some (.driver b))
    (hiso : ∀ v, state "iso_path" = some v → ∃ p, v = .str p)
    (hcd : ∀ v, state "cd_path" = some v → ∃ p, v = .str p) :
    (s.Run P state w).ret ≠ none := by
  obtain ⟨b, hdriver⟩ := hdriver
  unfold Run StateBag.GetOk
  simp only [hui, hdriver]
  rcases hv : state "iso_path" with _ | v
  · exact cdBlock_returns P s state w [] hcd
  · obtain ⟨p, rfl⟩ := hiso v hv
    simp only
    rcases hu : s.uploadFile P p w with ⟨res, w1, t1⟩
    cases res
    · simp
    · apply cdBlock_returns
      intro v hv2
      apply hcd
      simpa [StateBag.Put] using hv2

/-- A failed `iso_path` upload: `Run` halts with the error of the upload in the
bag and with the calls of that upload alone. -/
theorem Run_iso_failure (P : Platform σ D) (s : StepRemoteUpload) (state : StateBag) (w : σ)
    (p err : String) (hui : state "ui" = some .ui)
    (hdriver : ∃ b, state "driver" = some (.driver b))
    (hiso : state "iso_path" = some (.str p)) (hfail : (s.uploadFile P p w).1 = .error err) :
    (s.Run P state w).ret = some .ActionHalt
      ∧ (s.Run P state w).trace = (s.uploadFile P p w).2.2
      ∧ (s.Run P state w).state "error" = some (.error err) := by
  obtain ⟨b, hdriver⟩ := hdriver
  unfold Run StateBag.GetOk
  simp only [hui, hdriver, hiso]
  rcases hu : s.uploadFile P p w with ⟨res, w1, t1⟩
  rw [hu] at hfail
  simp only at hfail
  subst hfail
  simp [StateBag.Put]

end StepRemoteUpload

/-- The shape of every run of the hardware step. -/
theorem StepConfigureHardware.hardware_Run_shape {σ D : Type} (P : Platform σ D)
    (s : StepConfigureHardware) (state : StateBag) (w : σ) :
    runShape state (s.Run P state w) := by
  unfold StepConfigureHardware.Run
  rcases hui : state "ui" with _ | u
  · exact Trace.clean_nil
  · cases u
    case ui =>
      rcases hvm : state "vm" with _ | v
      · exact Trace.clean_nil
      · cases v
        case vm b =>
          rcases hc : s.Config with _ | c
          · exact Trace.clean_nil
          · simp only
            split_ifs with hne
            · split
              next err w1 heq =>
                show Trace.endsInFailure _ ∧ _
                exact ⟨⟨[.Say "Customizing hardware..."], _, rfl, rfl,
                  by simp [Trace.clean, Event.failed]⟩, _, rfl⟩
              next w1 heq =>
                show Trace.clean _ ∧ _
                exact ⟨by simp [Trace.clean, Event.failed], rfl⟩
            · exact ⟨Trace.clean_nil, rfl⟩
        all_goals exact Trace.clean_nil
    all_goals exact Trace.clean_nil

/-- `Run` of the hardware step returns on a bag with the ui and a virtual
machine, when the configuration pointer is not nil. -/
theorem StepConfigureHardware.hardware_Run_returns {σ D : Type} (P : Platform σ D)
    (s : StepConfigureHardware) (state : StateBag) (w : σ) (hui : state "ui" = some .ui)
    (hvm : ∃ b, state "vm" = some (.vm b)) (hc : s.Config ≠ none) :
    (s.Run P state w).ret ≠ none := by
  obtain ⟨b, hvm⟩ := hvm
  obtain ⟨c, hc⟩ := Option.ne_none_iff_exists'.mp hc
  unfold StepConfigureHardware.Run
  simp only [hui, hvm, hc]
  split_ifs
  · split <;> simp
  · simp

/-- The shape of every run of the configuration parameters step. -/
theorem StepConfigParams.params_Run_shape {σ D : Type} (P : Platform σ D)
    (s : StepConfigParams) (state : StateBag) (w : σ) :
    runShape state (s.Run P state w) := by
  unfold StepConfigParams.Run
  rcases hui : state "ui" with _ | u
  · exact Trace.clean_nil
  · cases u
    case ui =>
      rcases hvm : state "vm" with _ | v
      · exact Trace.clean_nil
      · cases v
        case vm b =>
          cases b
          · exact Trace.clean_nil
          · rcases hc : s.Config with _ | c
            · exact Trace.clean_nil
            · simp only
              split
              next err w1 heq =>
                show Trace.endsInFailure _ ∧ _
                exact ⟨⟨[.Say "Adding configuration parameters..."], _, rfl, rfl,
                  by simp [Trace.clean, Event.failed]⟩, _, rfl⟩
              next w1 heq =>
                show Trace.clean _ ∧ _
                exact ⟨by simp [Trace.clean, Event.failed], rfl⟩
        all_goals exact Trace.clean_nil
    all_goals exact Trace.clean_nil

/-- `Run` of the configuration parameters step returns on a bag with the ui and a
virtual machine driver, when the configuration pointer is not nil. -/
theorem StepConfigParams.params_Run_returns {σ D : Type} (P : Platform σ D)
    (s : StepConfigParams) (state : StateBag) (w : σ) (hui : state "ui" = some .ui)
    (hvm : state "vm" = some (.vm true)) (hc : s.Config ≠ none) :
    (s.Run P state w).ret ≠ none := by
  obtain ⟨c, hc⟩ := Option.ne_none_iff_exists'.mp hc
  unfold StepConfigParams.Run
  simp only [hui, hvm, hc]
  split <;> simp

/-- C5: each of the three `Run` methods returns `Halt` exactly when a call it
made returned an error; that call is then the last one made, and an error value
is in the bag under `error`; when `Run` returns `Continue` the value under
`error` is the one the bag had. A failed `iso_path` upload ends the run of the
upload step with the calls of that upload alone, so the `cd_path` upload is not
attempted. On a bag that holds what the step asserts on, `Run` returns. -/
theorem Run_halts_exactly_on_error {σ D : Type} (P : Platform σ D) (su : StepRemoteUpload)
    (sh : StepConfigureHardware) (sc : StepConfigParams) (state : StateBag) (w : σ) :
    (haltsExactlyOnError state (su.Run P state w)
        ∧ (state "ui" = some .ui → (∃ b, state "driver" = some (.driver b))
            → (∀ v, state "iso_path" = some v → ∃ p, v = .str p)
            → (∀ v, state "cd_path" = some v → ∃ p, v = .str p)
            → (su.Run P state w).ret ≠ none)
        ∧ (∀ p err, state "ui" = some .ui → (∃ b, state "driver" = some (.driver b))
            → state "iso_path" = some (.str p) → (su.uploadFile P p w).1 = .error err
            → (su.Run P state w).ret = some .ActionHalt
              ∧ (su.Run P state w).trace = (su.uploadFile P p w).2.2
              ∧ (su.Run P state w).state "error" = some (.error err)))
      ∧ (haltsExactlyOnError state (sh.Run P state w)
        ∧ (state "ui" = some .ui → (∃ b, state "vm" = some (.vm b)) → sh.Config ≠ none
            → (sh.Run P state w).ret ≠ none))
      ∧ (haltsExactlyOnError state (sc.Run P state w)
        ∧ (state "ui" = some .ui → state "vm" = some (.vm true) → sc.Config ≠ none
            → (sc.Run P state w).ret ≠ none)) :=
  ⟨⟨haltsExactlyOnError_of_runShape (StepRemoteUpload.upload_Run_shape P su state w),
      StepRemoteUpload.upload_Run_returns P su state w,
      fun p err hui hd hiso hfail =>
        StepRemoteUpload.Run_iso_failure P su state w p err hui hd hiso hfail⟩,
    ⟨haltsExactlyOnError_of_runShape (StepConfigureHardware.hardware_Run_shape P sh state w),
      StepConfigureHardware.hardware_Run_returns P sh state w⟩,
    ⟨haltsExactlyOnError_of_runShape (StepConfigParams.params_Run_shape P sc state w),
      StepConfigParams.params_Run_returns P sc state w⟩⟩

/-- C5 on the broken platform, with a boot image and a disk image to upload: the
directory creation for the boot image fails, `Run` halts with that error in the
bag, and no call is made for the disk image. -/
theorem Run_halts_exactly_on_error_witness :
    (StepRemoteUpload.Run (Platform.cache true) StepRemoteUpload.onDatastore1
          StateBag.withIsoAndCD []).ret = some .ActionHalt
      ∧ (StepRemoteUpload.Run (Platform.cache true) StepRemoteUpload.onDatastore1
          StateBag.withIsoAndCD []).trace
        = [.FindDatastore "datastore1" "" (.ok "datastore1"),
           .FileExists "datastore1" "packer_cache/boot.iso" false,
           .Say "Uploading boot.iso to [datastore1] packer_cache...",
           .DirExists "datastore1" "packer_cache/boot.iso" false,
           .Log "Cache directory does not exist; creating [datastore1] packer_cache...",
           .MakeDirectory "datastore1" "[datastore1] packer_cache" (some "permission denied")]
      ∧ (StepRemoteUpload.Run (Platform.cache true) StepRemoteUpload.onDatastore1
          StateBag.withIsoAndCD []).state "error" = some (.error "permission denied") := by
  have h := ((Run_halts_exactly_on_error (Platform.cache true) StepRemoteUpload.onDatastore1
    ⟨none⟩ ⟨none⟩ StateBag.withIsoAndCD []).1.2.2 "/tmp/boot.iso" "permission denied"
    (by decide) ⟨true, by decide⟩ (by decide) (by decide))
  exact ⟨h.1, h.2.1.trans (by decide), h.2.2⟩

/-! ## The calls of the hardware and configuration parameters steps -/

/-- C8: on a bag with the ui and a virtual machine, `Run` of the hardware step
makes no call and returns `Continue` when its configuration is the all-zero
value, and for every other configuration it makes exactly one `Configure` call,
whose seventeen fields are those of the step's configuration. -/
theorem StepConfigureHardware.Run_configures_once {σ D : Type} (P : Platform σ D)
    (s : StepConfigureHardware) (c : HardwareConfig) (state : StateBag) (w : σ)
    (hc : s.Config = some c) (hui : state "ui" = some .ui)
    (hvm : ∃ b, state "vm" = some (.vm b)) :
    (c = {} → (s.Run P state w).ret = some .ActionContinue
        ∧ (s.Run P state w).trace = []
        ∧ (s.Run P state w).trace.filter Event.isConfigure = [])
      ∧ (c ≠ {} → ∃ config err,
          (s.Run P state w).trace.filter Event.isConfigure = [.Configure config err]
            ∧ config.CPUs = c.CPUs ∧ config.CpuCores = c.CpuCores
            ∧ config.CPUReservation = c.CPUReservation ∧ config.CPULimit = c.CPULimit
            ∧ config.RAM = c.RAM ∧ config.RAMReservation = c.RAMReservation
            ∧ config.RAMReserveAll = c.RAMReserveAll ∧ config.NestedHV = c.NestedHV
            ∧ config.CpuHotAddEnabled = c.CpuHotAddEnabled
            ∧ config.MemoryHotAddEnabled = c.MemoryHotAddEnabled
            ∧ config.VideoRAM = c.VideoRAM ∧ config.Displays = c.Displays
            ∧ config.VGPUProfile = c.VGPUProfile ∧ config.Firmware = c.Firmware
            ∧ config.ForceBIOSSetup = c.ForceBIOSSetup ∧ config.VTPMEnabled = c.VTPMEnabled
            ∧ config.VirtualPrecisionClock = c.VirtualPrecisionClock) := by
  obtain ⟨b, hvm⟩ := hvm
  unfold StepConfigureHardware.Run
  simp only [hui, hvm, hc]
  constructor
  · intro h0
    subst h0
    simp
  · intro hne
    have hb : (c != ({} : HardwareConfig)) = true := by simpa using hne
    simp only [hb, if_true]
    split
    next err w1 heq =>
      exact ⟨_, some err, rfl, rfl, rfl, rfl, rfl, rfl, rfl, rfl, rfl,
        rfl, rfl, rfl, rfl, rfl, rfl, rfl, rfl, rfl⟩
    next w1 heq =>
      exact ⟨_, none, rfl, rfl, rfl, rfl, rfl, rfl, rfl, rfl, rfl,
        rfl, rfl, rfl, rfl, rfl, rfl, rfl, rfl, rfl⟩

/-- C8 at concrete configurations: the zero configuration makes no call; two
CPUs with an EFI firmware make the one `Configure` call with these values. -/
theorem StepConfigureHardware.Run_configures_once_witness :
    (StepConfigureHardware.Run (Platform.cache false) ⟨some {}⟩ StateBag.base []).trace = []
      ∧ (StepConfigureHardware.Run (Platform.cache false) ⟨some {}⟩ StateBag.base []).ret
        = some .ActionContinue
      ∧ (StepConfigureHardware.Run (Platform.cache false)
          ⟨some { CPUs := 2, Firmware := "efi" }⟩ StateBag.base []).trace
        = [.Say "Customizing hardware...",
           .Configure { CPUs := 2, Firmware := "efi" } none] := by
  have h := (StepConfigureHardware.Run_configures_once (Platform.cache false) ⟨some {}⟩ {}
    StateBag.base [] rfl (by decide) ⟨true, by decide⟩).1 rfl
  exact ⟨h.2.1, h.1, by decide⟩

/-- C10: on a bag with the ui and a virtual machine driver, `Run` of the
configuration parameters step makes exactly one `AddConfigParams` call. Its map
argument is never nil: the empty map when `ConfigParams` is unset, the
configured map otherwise. Its tools settings are nil exactly when both flags
are false; when they are built, `SyncTimeWithHost` is set, to true, exactly
when `ToolsSyncTime` is true and is nil otherwise, and `ToolsUpgradePolicy` is
`UpgradeAtPowerCycle` exactly when the flag is true and empty otherwise. -/
theorem StepConfigParams.Run_adds_params_once {σ D : Type} (P : Platform σ D)
    (s : StepConfigParams) (c : ConfigParamsConfig) (state : StateBag) (w : σ)
    (hc : s.Config = some c) (hui : state "ui" = some .ui)
    (hvm : state "vm" = some (.vm true)) :
    ∃ params info err,
      (s.Run P state w).trace.filter Event.isAddConfigParams
          = [.AddConfigParams params info err]
        ∧ params ≠ none
        ∧ (c.ConfigParams = none → params = some [])
        ∧ (c.ConfigParams ≠ none → params = c.ConfigParams)
        ∧ (info = none ↔ c.ToolsSyncTime = false ∧ c.ToolsUpgradePolicy = false)
        ∧ ∀ i, info = some i →
            (i.SyncTimeWithHost = some true ↔ c.ToolsSyncTime = true)
              ∧ (c.ToolsSyncTime = false → i.SyncTimeWithHost = none)
              ∧ (i.ToolsUpgradePolicy = "UpgradeAtPowerCycle" ↔ c.ToolsUpgradePolicy = true)
              ∧ (c.ToolsUpgradePolicy = false → i.ToolsUpgradePolicy = "") := by
  have hinfo : (StepConfigParams.toolsInfo c = none
        ↔ c.ToolsSyncTime = false ∧ c.ToolsUpgradePolicy = false)
      ∧ ∀ i, StepConfigParams.toolsInfo c = some i →
          (i.SyncTimeWithHost = some true ↔ c.ToolsSyncTime = true)
            ∧ (c.ToolsSyncTime = false → i.SyncTimeWithHost = none)
            ∧ (i.ToolsUpgradePolicy = "UpgradeAtPowerCycle" ↔ c.ToolsUpgradePolicy = true)
            ∧ (c.ToolsUpgradePolicy = false → i.ToolsUpgradePolicy = "") := by
    unfold StepConfigParams.toolsInfo
    rcases c with ⟨m, _ | _, _ | _⟩ <;> simp
    all_goals decide
  have hparams : ∀ m : GoMap, (if (m != none) = true then m else some []) ≠ none
      ∧ (m = none → (if (m != none) = true then m else some []) = some [])
      ∧ (m ≠ none → (if (m != none) = true then m else some []) = m) := by
    intro m
    cases m <;> simp
  unfold StepConfigParams.Run
  simp only [hui, hvm, hc]
  split
  next err w1 heq =>
    exact ⟨_, _, some err, rfl, (hparams c.ConfigParams).1,
      (hparams c.ConfigParams).2.1, (hparams c.ConfigParams).2.2, hinfo.1, hinfo.2⟩
  next w1 heq =>
    exact ⟨_, _, none, rfl, (hparams c.ConfigParams).1,
      (hparams c.ConfigParams).2.1, (hparams c.ConfigParams).2.2, hinfo.1, hinfo.2⟩

/-- C10 at concrete configurations: with nothing configured the call carries the
empty map and no tools settings; with a map and time synchronisation it carries
the map and settings whose `SyncTimeWithHost` is true and whose upgrade policy
is empty. -/
theorem StepConfigParams.Run_adds_params_once_witness :
    (StepConfigParams.Run (Platform.cache false) ⟨some {}⟩ StateBag.base []).trace
        = [.Say "Adding configuration parameters...", .AddConfigParams (some []) none none]
      ∧ (StepConfigParams.Run (Platform.cache false)
          ⟨some { ConfigParams := some [("disk.EnableUUID", "TRUE")], ToolsSyncTime := true }⟩
          StateBag.base []).trace
        = [.Say "Adding configuration parameters...",
           .AddConfigParams (some [("disk.EnableUUID", "TRUE")])
             (some { SyncTimeWithHost := some true, ToolsUpgradePolicy := "" }) none]
      ∧ ∃ params info err,
          (StepConfigParams.Run (Platform.cache false) ⟨some {}⟩ StateBag.base []).trace.filter
              Event.isAddConfigParams = [.AddConfigParams params info err]
            ∧ params ≠ none :=
  ⟨by decide, by decide,
    (StepConfigParams.Run_adds_params_once (Platform.cache false) ⟨some {}⟩ {} StateBag.base []
      rfl (by decide) (by decide)).imp fun _ h => h.imp fun _ h => h.imp fun _ h => ⟨h.1, h.2.1⟩⟩
